import Mathlib

/-!
Verification of the compute-value normalizer `parse_flops` from the
`plots` repository (`ai-compute-timeline/src/ai_compute_timeline.py`
and its duplicate in `ai_compute_timeline_plotly.py`).

The Python function converts a free-form FLOPs string into a numeric
value or `None`.  We embed it shallowly: strings become `List Char`
after the initial checks, the Python `re.search` calls on the five
specific patterns used by the code become deterministic scanning
functions (for these patterns, regex backtracking can never produce a
different match than maximal munch, because every quantified piece is
followed by a character class disjoint from the quantified one), and
the result becomes `Option FlopsVal`, where `FlopsVal.geomean lo hi`
records the geometric-mean result of the range rule symbolically so
that every function stays computable; `FlopsVal.toReal` interprets it
as `Real.sqrt (lo * hi)`.

Python float values produced by `float(f"{g1}e{g2}")` and
`3 * 10**int(g)` are idealized as exact rationals.
-/

namespace Plots

/-- Result of the normalizer: a plain number, or the geometric mean of
the two endpoints of a range (the code computes `np.sqrt(low * high)`). -/
inductive FlopsVal where
  | num : ℚ → FlopsVal
  | geomean : ℚ → ℚ → FlopsVal
deriving DecidableEq, Repr

/-- Numeric interpretation of a `FlopsVal`. -/
noncomputable def FlopsVal.toReal : FlopsVal → ℝ
  | .num q => (q : ℝ)
  | .geomean lo hi => Real.sqrt ((lo : ℝ) * (hi : ℝ))

/-- Whitespace characters removed by Python `str.strip()` (ASCII part). -/
def pySpace (c : Char) : Bool :=
  c = ' ' ∨ c = '\t' ∨ c = '\n' ∨ c = '\r' ∨ c = '\x0b' ∨ c = '\x0c'

/-- Python `str.strip()`. -/
def pyStrip (l : List Char) : List Char :=
  ((l.dropWhile pySpace).reverse.dropWhile pySpace).reverse

/-- Python substring containment `pat in s`. -/
def listContains (pat : List Char) : List Char → Bool
  | [] => pat.isPrefixOf ([] : List Char)
  | c :: cs => pat.isPrefixOf (c :: cs) || listContains pat cs

/-- Value of a digit string, most significant first. -/
def digitsToNat (l : List Char) : ℕ :=
  l.foldl (fun n c => 10 * n + (c.toNat - ('0').toNat)) 0

/-- Value of `float(f"{g1}e{g2}")` where group 1 is the mantissa
`<digits d1>[.<digits d2>]` and group 2 is the exponent digit string of
value `n`: the rational `(d1.d2) * 10^n`, built with `mkRat` so that it
evaluates in the kernel.  `sciVal_eq` below states the textbook form.
This idealizes the Python float as an exact unbounded rational: IEEE-754
rounding is dropped, and so is overflow to infinity — `float("1e999")`
is `inf` in the program, while here the value is the exact `10 ^ 999`
(which exceeds `2 ^ 1024`, the least upper bound of the finite doubles;
see the C3 counterexample). -/
def sciVal (d1 d2 : List Char) (n : ℕ) : ℚ :=
  mkRat (((digitsToNat d1 * 10 ^ d2.length + digitsToNat d2) * 10 ^ n : ℕ) : ℤ) (10 ^ d2.length)

/-- The `\.?\d*` fragment after the integer digits: if a dot follows,
consume it and the fractional digits; return those digits and the rest. -/
def fracPart : List Char → List Char × List Char
  | '.' :: rest => (rest.takeWhile Char.isDigit, rest.dropWhile Char.isDigit)
  | r => ([], r)

/-- Drop a single optional leading `+` (the `\+?` fragment of the
`[eE]\+?(\d+)` pattern). -/
def dropPlus : List Char → List Char
  | '+' :: t => t
  | l => l

/-- The `[eE](\d+)` tail (with an optional `+` after the `e` when
`allowPlus` is set): returns the exponent and the remaining input. -/
def expPart (allowPlus : Bool) : List Char → Option (ℕ × List Char)
  | [] => none
  | c :: rest =>
    if c = 'e' ∨ c = 'E' then
      let rest2 := if allowPlus then dropPlus rest else rest
      if (rest2.takeWhile Char.isDigit).isEmpty then none
      else some (digitsToNat (rest2.takeWhile Char.isDigit), rest2.dropWhile Char.isDigit)
    else none

/-- Match `(\d+\.?\d*)[eE]\+?(\d+)` (the `+` only when `allowPlus`) at
the start of `l`; on success return the numeric value
`float(f"{group1}e{group2}")` and the rest of the input. -/
def matchSciAt (allowPlus : Bool) (l : List Char) : Option (ℚ × List Char) :=
  if (l.takeWhile Char.isDigit).isEmpty then none
  else
    match expPart allowPlus (fracPart (l.dropWhile Char.isDigit)).2 with
    | some (n, rest) =>
        some (sciVal (l.takeWhile Char.isDigit) (fracPart (l.dropWhile Char.isDigit)).1 n, rest)
    | none => none

/-- Python `re.search(r'(\d+\.?\d*)e(\d+)', v, re.IGNORECASE)` (and,
with `allowPlus := true`, `re.search(r'(\d+\.?\d*)[eE]\+?(\d+)', v)`):
scan for the leftmost match and return its numeric value. -/
def searchSci (allowPlus : Bool) : List Char → Option ℚ
  | [] => none
  | c :: cs =>
    match matchSciAt allowPlus (c :: cs) with
    | some (q, _) => some q
    | none => searchSci allowPlus cs

/-- Match `~?(\d+\.?\d*)[eE](\d+)` at the start of `l` (the anchored
pattern `^~?(\d+\.?\d*)[eE](\d+)` of the code when applied at
position 0). -/
def matchTilde (l : List Char) : Option ℚ :=
  match l with
  | '~' :: t => (matchSciAt false t).map Prod.fst
  | _ => (matchSciAt false l).map Prod.fst

/-- Python `re.search(r'~?(\d+\.?\d*)e(\d+)\+?', v, re.IGNORECASE)`:
the trailing `\+?` never affects the captured groups, so the value is
that of the leftmost `~?`-prefixed scientific token. -/
def searchSciTilde : List Char → Option ℚ
  | [] => none
  | c :: cs =>
    match matchTilde (c :: cs) with
    | some q => some q
    | none => searchSciTilde cs

/-- Match the range pattern `(\d+\.?\d*)e(\d+)[-–](\d+\.?\d*)e(\d+)`
at the start of `l`, returning both endpoint values. -/
def matchRangeAt (l : List Char) : Option (ℚ × ℚ) :=
  match matchSciAt false l with
  | none => none
  | some (q1, rest) =>
    match rest with
    | [] => none
    | c :: rest2 =>
      if c = '-' ∨ c = '–' then
        match matchSciAt false rest2 with
        | some (q2, _) => some (q1, q2)
        | none => none
      else none

/-- Python `re.search` of the range pattern: leftmost match. -/
def searchRange : List Char → Option (ℚ × ℚ)
  | [] => none
  | c :: cs =>
    match matchRangeAt (c :: cs) with
    | some p => some p
    | none => searchRange cs

/-- Python `re.search(r'e(\d+)', v, re.IGNORECASE)`: leftmost `e`/`E`
followed by at least one digit; returns the exponent digits' value. -/
def searchExp : List Char → Option ℕ
  | [] => none
  | c :: cs =>
    if c = 'e' ∨ c = 'E' then
      if (cs.takeWhile Char.isDigit).isEmpty then searchExp cs
      else some (digitsToNat (cs.takeWhile Char.isDigit))
    else searchExp cs

/-- Python `v.startswith('>')`. -/
def startsGt : List Char → Bool
  | '>' :: _ => true
  | _ => false

/-- The last three rules of `parse_flops`: the anchored
`^~?(\d+\.?\d*)[eE](\d+)` pattern, then `(\d+\.?\d*)[eE]\+?(\d+)`,
then `~?(\d+\.?\d*)e(\d+)\+?`, else `None`. -/
def genericRules (v : List Char) : Option FlopsVal :=
  match matchTilde v with
  | some q => some (.num q)
  | none =>
    match searchSci true v with
    | some q => some (.num q)
    | none =>
      match searchSciTilde v with
      | some q => some (.num q)
      | none => none

/-- The `"~few e23"` rule: if the lowercased string contains `few` and
an `e(\d+)` token is found, return `3 * 10**exponent`; otherwise fall
through to the generic rules. -/
def fewRule (v : List Char) : Option FlopsVal :=
  if listContains ("few".data) (v.map Char.toLower) then
    match searchExp v with
    | some n => some (.num ((3 * 10 ^ n : ℕ) : ℚ))
    | none => genericRules v
  else genericRules v

/-- The `">1e26"` rule: if the string starts with `>` and a scientific
token is found anywhere, return it; otherwise fall through. -/
def gtRule (v : List Char) : Option FlopsVal :=
  if startsGt v then
    match searchSci false v with
    | some q => some (.num q)
    | none => fewRule v
  else fewRule v

/-- The range rule: `A eX - B eY` (hyphen or en-dash) yields the
geometric mean of the endpoints; otherwise fall through. -/
def rangeRule (v : List Char) : Option FlopsVal :=
  match searchRange v with
  | some (lo, hi) => some (.geomean lo hi)
  | none => gtRule v

/-- The rule cascade of `parse_flops` applied to the stripped string:
the Speculative, High-compute, Proxy rules and then the numeric rules. -/
def parse_flops_core (v : List Char) : Option FlopsVal :=
  if listContains ("Speculative".data) v then
      match searchSci false v with
      | some q => some (.num q)
      | none => some (.num (((10 ^ 27 : ℕ) : ℚ)))
    else if listContains ("High compute".data) v ∨ v = ("Speculative".data) then
      some (.num (((10 ^ 21 : ℕ) : ℚ)))
    else if listContains ("Proxy".data) v then
      match searchSci false v with
      | some q => some (.num q)
      | none =>
        if listContains ("low".data) (v.map Char.toLower) then some (.num (((10 ^ 6 : ℕ) : ℚ)))
        else some (.num (((10 ^ 3 : ℕ) : ℚ)))
    else rangeRule v

/-- Shallow embedding of `parse_flops` from
`ai-compute-timeline/src/ai_compute_timeline.py`, lines 23-84: the
empty/`N/A` check happens before stripping, every later rule sees the
stripped string. -/
def parse_flops (value : String) : Option FlopsVal :=
  if value = "" ∨ value = "N/A" then none
  else parse_flops_core (pyStrip value.data)

/-- Shallow embedding of the duplicated `parse_flops` from
`ai-compute-timeline/src/ai_compute_timeline_plotly.py`, lines 28-69,
transcribed independently as one monolithic definition (the regex and
string primitives model the shared Python standard library). -/
def parse_flops_plotly (value : String) : Option FlopsVal :=
  if value = "" ∨ value = "N/A" then none
  else
    let v := pyStrip value.data
    let generic : Option FlopsVal :=
      match matchTilde v with
      | some q => some (.num q)
      | none =>
        match searchSci true v with
        | some q => some (.num q)
        | none =>
          match searchSciTilde v with
          | some q => some (.num q)
          | none => none
    let few : Option FlopsVal :=
      if listContains ("few".data) (v.map Char.toLower) then
        match searchExp v with
        | some n => some (.num ((3 * 10 ^ n : ℕ) : ℚ))
        | none => generic
      else generic
    let gt : Option FlopsVal :=
      if startsGt v then
        match searchSci false v with
        | some q => some (.num q)
        | none => few
      else few
    let rng : Option FlopsVal :=
      match searchRange v with
      | some (lo, hi) => some (.geomean lo hi)
      | none => gt
    if listContains ("Speculative".data) v then
      match searchSci false v with
      | some q => some (.num q)
      | none => some (.num (((10 ^ 27 : ℕ) : ℚ)))
    else if listContains ("High compute".data) v ∨ v = ("Speculative".data) then
      some (.num (((10 ^ 21 : ℕ) : ℚ)))
    else if listContains ("Proxy".data) v then
      match searchSci false v with
      | some q => some (.num q)
      | none =>
        if listContains ("low".data) (v.map Char.toLower) then some (.num (((10 ^ 6 : ℕ) : ℚ)))
        else some (.num (((10 ^ 3 : ℕ) : ℚ)))
    else rng

/-- The value computed by `sciVal` is the textbook reading of the two
captured groups: integer digits, plus fractional digits scaled by their
length, times ten to the exponent. -/
theorem sciVal_eq (d1 d2 : List Char) (n : ℕ) :
    sciVal d1 d2 n =
      ((digitsToNat d1 : ℚ) + (digitsToNat d2 : ℚ) / 10 ^ d2.length) * 10 ^ n := by
  have h10 : ((10 : ℚ) ^ d2.length) ≠ 0 := by positivity
  rw [sciVal, Rat.mkRat_eq_divInt, Rat.divInt_eq_div]
  push_cast
  field_simp

/-- Every scientific-notation value the matcher produces is non-negative
(the patterns capture unsigned digit strings only). -/
theorem sciVal_nonneg (d1 d2 : List Char) (n : ℕ) : 0 ≤ sciVal d1 d2 n := by
  rw [sciVal_eq]; positivity

theorem matchSciAt_nonneg {b : Bool} {l : List Char} {q : ℚ} {r : List Char}
    (h : matchSciAt b l = some (q, r)) : 0 ≤ q := by
  unfold matchSciAt at h
  split at h
  · exact Option.noConfusion h
  · split at h
    · simp only [Option.some.injEq, Prod.mk.injEq] at h
      exact h.1 ▸ sciVal_nonneg _ _ _
    · exact Option.noConfusion h

theorem searchSci_nonneg {b : Bool} :
    ∀ {l : List Char} {q : ℚ}, searchSci b l = some q → 0 ≤ q := by
  intro l
  induction l with
  | nil => intro q h; exact Option.noConfusion h
  | cons c cs ih =>
    intro q h
    unfold searchSci at h
    split at h
    · rename_i p heq
      cases h
      exact matchSciAt_nonneg heq
    · exact ih h

theorem matchTilde_nonneg {l : List Char} {q : ℚ} (h : matchTilde l = some q) : 0 ≤ q := by
  unfold matchTilde at h
  split at h <;>
  · rw [Option.map_eq_some'] at h
    obtain ⟨⟨q2, r2⟩, hm, hq⟩ := h
    exact hq ▸ matchSciAt_nonneg hm

theorem searchSciTilde_nonneg :
    ∀ {l : List Char} {q : ℚ}, searchSciTilde l = some q → 0 ≤ q := by
  intro l
  induction l with
  | nil => intro q h; exact Option.noConfusion h
  | cons c cs ih =>
    intro q h
    unfold searchSciTilde at h
    split at h
    · rename_i heq
      cases h
      exact matchTilde_nonneg heq
    · exact ih h

/-- Non-negativity of a result value: the plain number is non-negative
(for the geometric-mean constructor the interpretation is a square root
and needs no side condition). -/
def FlopsVal.numNonneg : FlopsVal → Prop
  | .num q => 0 ≤ q
  | .geomean _ _ => True

theorem genericRules_nonneg {v : List Char} {w : FlopsVal}
    (h : genericRules v = some w) : w.numNonneg := by
  unfold genericRules at h
  split at h
  · rename_i heq; cases h; exact matchTilde_nonneg heq
  · split at h
    · rename_i heq; cases h; exact searchSci_nonneg heq
    · split at h
      · rename_i heq; cases h; exact searchSciTilde_nonneg heq
      · exact Option.noConfusion h

theorem fewRule_nonneg {v : List Char} {w : FlopsVal}
    (h : fewRule v = some w) : w.numNonneg := by
  unfold fewRule at h
  split at h
  · split at h
    · cases h
      show (0 : ℚ) ≤ _
      positivity
    · exact genericRules_nonneg h
  · exact genericRules_nonneg h

theorem gtRule_nonneg {v : List Char} {w : FlopsVal}
    (h : gtRule v = some w) : w.numNonneg := by
  unfold gtRule at h
  split at h
  · split at h
    · rename_i heq; cases h; exact searchSci_nonneg heq
    · exact fewRule_nonneg h
  · exact fewRule_nonneg h

theorem rangeRule_nonneg {v : List Char} {w : FlopsVal}
    (h : rangeRule v = some w) : w.numNonneg := by
  unfold rangeRule at h
  split at h
  · cases h; trivial
  · exact gtRule_nonneg h

theorem parse_flops_core_nonneg {v : List Char} {w : FlopsVal}
    (h : parse_flops_core v = some w) : w.numNonneg := by
  unfold parse_flops_core at h
  split at h
  · split at h
    · rename_i heq; cases h; exact searchSci_nonneg heq
    · cases h
      show (0 : ℚ) ≤ _
      positivity
  · split at h
    · cases h
      show (0 : ℚ) ≤ _
      positivity
    · split at h
      · split at h
        · rename_i heq; cases h; exact searchSci_nonneg heq
        · split at h <;>
          · cases h
            show (0 : ℚ) ≤ _
            positivity
      · exact rangeRule_nonneg h

theorem parse_flops_nonneg {s : String} {w : FlopsVal}
    (h : parse_flops s = some w) : w.numNonneg := by
  unfold parse_flops at h
  split at h
  · exact Option.noConfusion h
  · exact parse_flops_core_nonneg h

theorem FlopsVal.toReal_nonneg {w : FlopsVal} (h : w.numNonneg) : 0 ≤ w.toReal := by
  cases w with
  | num q =>
    have hq : (0 : ℚ) ≤ q := h
    simp only [FlopsVal.toReal]
    exact_mod_cast hq
  | geomean lo hi => exact Real.sqrt_nonneg _

/-- C1: totality / never raises.  `parse_flops` is a total function: for
every input string it returns a value, either a number or the unknown
sentinel `none`, and in particular it returns `none` (not an error) on
the malformed inputs "eee", "1e" and "-e5". -/
theorem C1_parse_flops_total :
    (∀ s : String, parse_flops s = none ∨ ∃ w, parse_flops s = some w) ∧
    parse_flops "eee" = none ∧ parse_flops "1e" = none ∧ parse_flops "-e5" = none := by
  refine ⟨fun s => ?_, by decide, by decide, by decide⟩
  cases h : parse_flops s with
  | none => exact Or.inl rfl
  | some w => exact Or.inr ⟨w, rfl⟩

/-- C2: duplicate equivalence.  The copy of `parse_flops` in
`ai_compute_timeline.py` and the copy in `ai_compute_timeline_plotly.py`
return identical results on every input string. -/
theorem C2_parse_flops_duplicates_equal :
    ∀ s : String, parse_flops s = parse_flops_plotly s :=
  fun _ => rfl

set_option exponentiation.threshold 1100 in
/-- C3 counterexample: "either unknown or a finite positive number"
fails on both counts.  Positivity: the input "0e5" has an all-zero
mantissa, the generic scientific-notation rule captures it, and the
function returns the number 0, which is not greater than zero.
Finiteness: on the input "1e999" the same rule captures mantissa 1 and
exponent 999, and the value handed to `float()` is 10^999, which
exceeds `2 ^ 1024`, the least upper bound of the finite IEEE-754
doubles — so the program's `float("1e999")` is `inf`, not a finite
number (the exact-rational model records the out-of-range magnitude;
the infinity itself is not representable here). -/
theorem C3_counterexample :
    (parse_flops "0e5" = some (FlopsVal.num 0) ∧
      ¬ 0 < (FlopsVal.num (0 : ℚ)).toReal) ∧
    (parse_flops "1e999" = some (FlopsVal.num ((10 ^ 999 : ℕ) : ℚ)) ∧
      (2 ^ 1024 : ℕ) < 10 ^ 999) := by
  exact ⟨⟨by decide, by simp [FlopsVal.toReal]⟩, by decide, by decide⟩

/-- C3 amended: for every input string, `parse_flops` returns either the
unknown sentinel or a non-negative number (zero is possible when the
captured mantissa digits are all zero, and under the program's IEEE-754
arithmetic the number can be the non-negative infinity when the
magnitude exceeds the double range). -/
theorem C3_output_nonneg_or_unknown :
    ∀ (s : String) (w : FlopsVal), parse_flops s = some w → 0 ≤ w.toReal :=
  fun _ _ h => FlopsVal.toReal_nonneg (parse_flops_nonneg h)

/-- C3 witness: the amended theorem applied at the concrete input
"6.00E+17". -/
theorem C3_witness :
    0 ≤ (FlopsVal.num ((6 * 10 ^ 17 : ℕ) : ℚ)).toReal :=
  C3_output_nonneg_or_unknown "6.00E+17" (FlopsVal.num ((6 * 10 ^ 17 : ℕ) : ℚ)) (by decide)

/-- C4 counterexample: on the input exactly "Speculative" the function
does not return the rule-3 constant `1e21`. -/
theorem C4_counterexample :
    parse_flops "Speculative" ≠ some (FlopsVal.num ((10 ^ 21 : ℕ) : ℚ)) := by
  decide

/-- C4 amended: for the input string exactly "Speculative" the function
returns `1e27`, because the string contains "Speculative" and so the
Speculative-containment rule (checked first) fires with no numeric token
present; the `value == 'Speculative'` clause of the later High-compute
branch is unreachable (any string equal to "Speculative" also contains
it, as the second conjunct records). -/
theorem C4_speculative_exact_1e27 :
    parse_flops "Speculative" = some (FlopsVal.num ((10 ^ 27 : ℕ) : ℚ)) ∧
    listContains ("Speculative".data) ("Speculative".data) = true := by
  exact ⟨by decide, by decide⟩

/-- C5: rule-order precedence.  "Speculative High compute" resolves via
the Speculative branch, which is checked before the High-compute branch,
and since the string has no mantissa/exponent token the result is the
Speculative fallback `1e27`, not `1e21`. -/
theorem C5_precedence_speculative_over_high :
    parse_flops "Speculative High compute" = some (FlopsVal.num ((10 ^ 27 : ℕ) : ℚ)) ∧
    parse_flops "Speculative High compute" ≠ some (FlopsVal.num ((10 ^ 21 : ℕ) : ℚ)) := by
  exact ⟨by decide, by decide⟩

/-- C6: lower-bound inequality rule.  `parse_flops ">1e26"` returns
`1e26`; and in general, when a string starts with ">" but the
mantissa/exponent extraction fails, the ">" step does not return: it
falls through to the later rules (the "few" rule and the generic
scientific-notation rules) on the same string. -/
theorem C6_lower_bound_rule :
    parse_flops ">1e26" = some (FlopsVal.num ((10 ^ 26 : ℕ) : ℚ)) ∧
    ∀ v : List Char, startsGt v = true → searchSci false v = none →
      gtRule v = fewRule v := by
  refine ⟨by decide, fun v h1 h2 => ?_⟩
  unfold gtRule
  simp [h1, h2]

/-- C6 witness: the fall-through part applied at ">few e23", a
">"-prefixed string on which extraction fails. -/
theorem C6_witness :
    gtRule (">few e23".data) = fewRule (">few e23".data) :=
  C6_lower_bound_rule.2 (">few e23".data) (by decide) (by decide)

/-- C7: range rule.  `parse_flops "1e24-1e25"` returns the geometric
mean of the endpoints, whose interpretation is `sqrt (1e24 * 1e25)`; and
in general, any string not caught by the earlier qualifier rules on
which the range pattern matches yields the geometric mean of the two
captured endpoint values. -/
theorem C7_range_geometric_mean :
    parse_flops "1e24-1e25" = some (FlopsVal.geomean ((10 ^ 24 : ℕ) : ℚ) ((10 ^ 25 : ℕ) : ℚ)) ∧
    (FlopsVal.geomean ((10 ^ 24 : ℕ) : ℚ) ((10 ^ 25 : ℕ) : ℚ)).toReal =
      Real.sqrt ((10 ^ 24 : ℝ) * (10 ^ 25 : ℝ)) ∧
    ∀ (v : List Char) (lo hi : ℚ),
      listContains ("Speculative".data) v = false →
      listContains ("High compute".data) v = false →
      v ≠ "Speculative".data →
      listContains ("Proxy".data) v = false →
      searchRange v = some (lo, hi) →
      parse_flops_core v = some (FlopsVal.geomean lo hi) := by
  refine ⟨by decide, ?_, fun v lo hi h1 h2 h3 h4 h5 => ?_⟩
  · simp only [FlopsVal.toReal]
    norm_num
  · unfold parse_flops_core
    simp [h1, h2, h3, h4, rangeRule, h5]

/-- C7 witness: the general part applied to the stripped form of
"~1e17-1e18" (a range with a leading tilde, as in the code comment). -/
theorem C7_witness :
    parse_flops_core ("~1e17-1e18".data) =
      some (FlopsVal.geomean ((10 ^ 17 : ℕ) : ℚ) ((10 ^ 18 : ℕ) : ℚ)) :=
  C7_range_geometric_mean.2.2 ("~1e17-1e18".data) ((10 ^ 17 : ℕ) : ℚ) ((10 ^ 18 : ℕ) : ℚ)
    (by decide) (by decide) (by decide) (by decide) (by decide)

/-- C8: vague order-of-magnitude rule.  `parse_flops "~few e23"` equals
`3e23`; and in general, when the lowercased string contains "few" and an
`e<digits>` token is found, the rule returns exactly `3 * 10 ^ exponent`. -/
theorem C8_few_rule :
    parse_flops "~few e23" = some (FlopsVal.num ((3 * 10 ^ 23 : ℕ) : ℚ)) ∧
    ∀ (v : List Char) (n : ℕ),
      listContains ("few".data) (v.map Char.toLower) = true →
      searchExp v = some n →
      fewRule v = some (FlopsVal.num ((3 * 10 ^ n : ℕ) : ℚ)) := by
  refine ⟨by decide, fun v n h1 h2 => ?_⟩
  unfold fewRule
  simp [h1, h2]

/-- C8 witness: the general part applied at "few E9" (capital `E`,
matched case-insensitively). -/
theorem C8_witness :
    fewRule ("few E9".data) = some (FlopsVal.num ((3 * 10 ^ 9 : ℕ) : ℚ)) :=
  C8_few_rule.2 ("few E9".data) 9 (by decide) (by decide)

/-- C9: unknown inputs.  The empty string and the literal "N/A" map to
the unknown sentinel `none`. -/
theorem C9_unknown_inputs :
    parse_flops "" = none ∧ parse_flops "N/A" = none := by
  exact ⟨by decide, by decide⟩

/-- C10: sign blindness.  Whenever `parse_flops` returns a number, that
number is not negative (all fallback constants are positive and every
extraction pattern captures only unsigned digit sequences); in
particular "-1e20" yields the positive value `1e20`, never a negative
number. -/
theorem C10_sign_blind_nonneg :
    (∀ (s : String) (w : FlopsVal), parse_flops s = some w → ¬ w.toReal < 0) ∧
    parse_flops "-1e20" = some (FlopsVal.num ((10 ^ 20 : ℕ) : ℚ)) ∧
    0 < (FlopsVal.num ((10 ^ 20 : ℕ) : ℚ)).toReal := by
  refine ⟨fun s w h => not_lt.mpr (FlopsVal.toReal_nonneg (parse_flops_nonneg h)), by decide, ?_⟩
  simp only [FlopsVal.toReal]
  positivity

/-- C10 witness: the universal part applied at the concrete input
"-1e20". -/
theorem C10_witness :
    ¬ (FlopsVal.num ((10 ^ 20 : ℕ) : ℚ)).toReal < 0 :=
  C10_sign_blind_nonneg.1 "-1e20" (FlopsVal.num ((10 ^ 20 : ℕ) : ℚ)) (by decide)

end Plots
